import Mathlib

/-!
# Greenlight data layer: optimistic concurrency, token lookup, validation

A shallow embedding of `internal/data/movies.go` and `internal/data/users.go`.

* Go values passed by pointer and mutated (`*Movie`, `*User`, `*Validator`) are threaded
  explicitly: a function returns the value it leaves behind the pointer.
* The relational store is a record of tables (lists of rows) on which each SQL statement
  of the source is given its set semantics.  A statement never fails for a reason outside
  the program (timeout, lost connection): the store is healthy.  It does fail where MySQL
  rejects the statement itself (duplicate key, value out of range).  A column holds values
  of the type of the Go field it is scanned into, so `Scan` fails only for want of a row.
* A `*User` returned by the model is an address in an explicit heap of `User` objects, so
  that pointer equality can be told from equality of fields.
* Go strings are Lean strings, `len` is the UTF-8 byte size; a Go slice that may be `nil`
  is an `Option (List _)`, `none` being `nil`.
* Instants (`time.Time`, `DATETIME`) are integers in the resolution of the store.
-/

set_option autoImplicit false
set_option linter.dupNamespace false

namespace Greenlight

/-- Instants, in the resolution of the store. -/
abbrev Time := Int

/-- Byte strings (`[]byte` that is not nil, `BINARY` columns). -/
abbrev Bytes := List UInt8

/-- The error values the data layer handles: the sentinels of `database/sql`, of the
`data` package and of `bcrypt`, a MySQL server error with its number, and any other
error. -/
inductive Error where
  | ErrNoRows
  | ErrRecordNotFound
  | ErrEditConflict
  | ErrDuplicateEmail
  | ErrMismatchedHashAndPassword
  | MySQL (number : Nat)
  | Other (msg : String)
  deriving DecidableEq

/-- Go `err.Error()`.  The driver prints a server error as "Error", the number, then the
state and the message of the server.  Modelled from the spec: `ErrRecordNotFound` and
`ErrEditConflict` are declared in a file that is missing from the source; their texts are
the names of the failures `NotFound` and `EditConflict`. -/
def Error.Error : Error → String
  | .ErrNoRows => "sql: no rows in result set"
  | .ErrRecordNotFound => "record not found"
  | .ErrEditConflict => "edit conflict"
  | .ErrDuplicateEmail => "duplicate email"
  | .ErrMismatchedHashAndPassword =>
    "crypto/bcrypt: hashedPassword is not the hash of the given password"
  | .MySQL number => "Error " ++ toString number
  | .Other msg => msg

/-! ## `strings.Join`, `strings.Split` and `strings.HasPrefix` -/

namespace strings

/-- Go `strings.HasPrefix(s, p)`: `s` begins with `p`. -/
def HasPrefix (s p : String) : Bool := p.data.isPrefixOf s.data

/-- Concatenation of `elems` with `sep` between consecutive elements. -/
def joinChars (sep : List Char) : List (List Char) → List Char
  | [] => []
  | [x] => x
  | x :: y :: rest => x ++ sep ++ joinChars sep (y :: rest)

/-- Cut at every occurrence of the separator character; the pieces between the
occurrences, in order (`n` occurrences give `n + 1` pieces). -/
def splitChars (sep : Char) : List Char → List (List Char)
  | [] => [[]]
  | c :: cs =>
    if c = sep then [] :: splitChars sep cs
    else
      match splitChars sep cs with
      | [] => [[c]]
      | w :: ws => (c :: w) :: ws

/-- Go `strings.Join(elems, sep)`. -/
def Join (elems : List String) (sep : String) : String :=
  ⟨joinChars sep.data (elems.map String.data)⟩

/-- Go `strings.Split(s, sep)` for a separator of one character (the source only
splits on `","`). -/
def Split (s : String) (sep : Char) : List String :=
  (splitChars sep s.data).map String.mk

end strings

/-- The elements of a Go slice; a nil slice has none. -/
def elems {α : Type} : Option (List α) → List α
  | none => []
  | some xs => xs

/-- Go `len` of a slice. -/
def len {α : Type} (s : Option (List α)) : Nat := (elems s).length

/-! ## Data model -/

/-- Go `type Movie struct`. -/
structure Movie where
  ID : Int
  CreatedAt : Time
  Title : String
  Year : Int
  Runtime : Int
  Genres : Option (List String)
  Version : Int
  deriving DecidableEq

/-- Go `type password struct`: `plaintext` is a `*string`, `hash` a `[]byte`. -/
structure password where
  plaintext : Option String
  hash : Option Bytes
  deriving DecidableEq

/-- Go `type User struct`. -/
structure User where
  ID : Int
  CreatedAt : Time
  Name : String
  Email : String
  Password : password
  Activated : Bool
  Version : Int
  deriving DecidableEq

/-! ## The store -/

/-- A row of `movies(id, created_at, title, year, runtime, genres, version)`. -/
structure MovieRow where
  id : Int
  created_at : Time
  title : String
  year : Int
  runtime : Int
  genres : String
  version : Int
  deriving DecidableEq

/-- A row of `users(id, created_at, name, email, password_hash, activated, version)`. -/
structure UserRow where
  id : Int
  created_at : Time
  name : String
  email : String
  password_hash : Option Bytes
  activated : Bool
  version : Int
  deriving DecidableEq

/-- A row of `tokens(hash, user_id, expiry, scope)`. -/
structure TokenRow where
  hash : Bytes
  user_id : Int
  expiry : Time
  scope : String
  deriving DecidableEq

/-- The statements the data layer sends to the store. -/
inductive Stmt where
  | InsertMovie
  | SelectInsertedMovie
  | SelectMovie (id : Int)
  | UpdateMovie (id version : Int)
  | SelectMovieVersion (id : Int)
  | DeleteMovie (id : Int)
  | InsertUser
  | SelectInsertedUser
  | SelectUserByEmail (email : String)
  | UpdateUser (id version : Int)
  | SelectUserVersion (id : Int)
  | SelectUserForToken (hash : Bytes) (scope : String) (now : Time)
  deriving DecidableEq

/-- The store behind `*sql.DB`: the three tables, the AUTO_INCREMENT counters of `movies`
and `users`, the value of `LAST_INSERT_ID()`, and the statements received so far. -/
structure DB where
  movies : List MovieRow
  users : List UserRow
  tokens : List TokenRow
  moviesAutoInc : Int
  usersAutoInc : Int
  lastInsertID : Int
  log : List Stmt
  deriving DecidableEq

/-- Modelled from the spec: the table definitions (the schema migrations) are missing from
the source.  `version` "starts at store default", and a freshly inserted movie is expected
to have `version == 1`. -/
def versionDefault : Int := 1

/-- Modelled from the spec: the table definitions are missing from the source.  `version`
is an `int32` (a signed 32-bit `INT` column), so this is the largest version a row holds. -/
def versionMax : Int := 2147483647

/-- The store receives a statement. -/
def DB.recv (db : DB) (s : Stmt) : DB := { db with log := db.log ++ [s] }

/-- The store after `INSERT INTO movies (title, year, runtime, genres) VALUES (?, ?, ?, ?)` at
instant `now`: the row gets the next AUTO_INCREMENT id, the current instant and the default
version. -/
def DB.execInsertMovie (db : DB) (now : Time) (title : String) (year runtime : Int)
    (genres : String) : DB × Except Error Nat :=
  let row : MovieRow :=
    { id := db.moviesAutoInc, created_at := now, title := title, year := year,
      runtime := runtime, genres := genres, version := versionDefault }
  ({ db.recv Stmt.InsertMovie with
      movies := db.movies ++ [row]
      moviesAutoInc := db.moviesAutoInc + 1
      lastInsertID := db.moviesAutoInc }, .ok 1)

/-- The first row of
`SELECT LAST_INSERT_ID() as id, created_at, version FROM movies WHERE id = LAST_INSERT_ID()`. -/
def DB.queryInsertedMovie (db : DB) : DB × Option (Int × Time × Int) :=
  (db.recv Stmt.SelectInsertedMovie,
    (db.movies.find? (fun r => decide (r.id = db.lastInsertID))).map
      (fun r => (db.lastInsertID, r.created_at, r.version)))

/-- The first row of
`SELECT id, created_at, title, year, runtime, genres, version FROM movies WHERE id = ?`. -/
def DB.queryMovie (db : DB) (id : Int) : DB × Option MovieRow :=
  (db.recv (Stmt.SelectMovie id), db.movies.find? (fun r => decide (r.id = id)))

/-- The row written by the UPDATE of `movies` over a row that satisfies its WHERE clause. -/
def MovieRow.updated (r : MovieRow) (title : String) (year runtime : Int) (genres : String) :
    MovieRow :=
  { r with title := title, year := year, runtime := runtime, genres := genres,
           version := r.version + 1 }

/-- The store after
`UPDATE movies SET title = ?, year = ?, runtime = ?, genres = ?, version = version + 1
 WHERE id = ? AND version = ?`,
with the number of rows affected.  A row whose incremented version does not fit the column
makes the server reject the statement (error 1264, out of range). -/
def DB.execUpdateMovie (db : DB) (title : String) (year runtime : Int) (genres : String)
    (id version : Int) : DB × Except Error Nat :=
  let hit : MovieRow → Bool := fun r => decide (r.id = id ∧ r.version = version)
  if db.movies.any (fun r => hit r && decide (versionMax < r.version + 1)) then
    (db.recv (Stmt.UpdateMovie id version), .error (Error.MySQL 1264))
  else
    ({ db.recv (Stmt.UpdateMovie id version) with
        movies := db.movies.map
          (fun r => if hit r then r.updated title year runtime genres else r) },
      .ok (db.movies.countP hit))

/-- The first row of `SELECT version FROM movies WHERE id = ?`. -/
def DB.queryMovieVersion (db : DB) (id : Int) : DB × Option Int :=
  (db.recv (Stmt.SelectMovieVersion id),
    (db.movies.find? (fun r => decide (r.id = id))).map (fun r => r.version))

/-- The store after `DELETE FROM movies WHERE id=?`, with the number of rows affected. -/
def DB.execDeleteMovie (db : DB) (id : Int) : DB × Except Error Nat :=
  ({ db.recv (Stmt.DeleteMovie id) with
      movies := db.movies.filter (fun r => !decide (r.id = id)) },
    .ok (db.movies.countP (fun r => decide (r.id = id))))

/-! ## `MovieModel` -/

namespace MovieModel

/-- Go `func (m MovieModel) Insert(movie *Movie) error`, run at instant `now`: the store
after the call, the movie behind the pointer, and the error. -/
def Insert (db : DB) (now : Time) (movie : Movie) : DB × Movie × Option Error :=
  match db.execInsertMovie now movie.Title movie.Year movie.Runtime
      (strings.Join (elems movie.Genres) ",") with
  | (db1, .error err) => (db1, movie, some err)
  | (db1, .ok _) =>
    match db1.queryInsertedMovie with
    | (db2, none) => (db2, movie, some Error.ErrNoRows)
    | (db2, some (id, createdAt, version)) =>
      (db2, { movie with ID := id, CreatedAt := createdAt, Version := version }, none)

/-- Go `func (m MovieModel) Get(id int64) (*Movie, error)`. -/
def Get (db : DB) (id : Int) : DB × Option Movie × Option Error :=
  if id < 1 then (db, none, some Error.ErrRecordNotFound)
  else
    match db.queryMovie id with
    | (db1, none) => (db1, none, some Error.ErrRecordNotFound)
    | (db1, some tmp) =>
      (db1,
        some { ID := tmp.id, CreatedAt := tmp.created_at, Title := tmp.title, Year := tmp.year,
               Runtime := tmp.runtime, Genres := some (strings.Split tmp.genres ','),
               Version := tmp.version },
        none)

/-- Go `func (m MovieModel) Update(movie *Movie) error`: the store after the call, the
movie behind the pointer, and the error. -/
def Update (db : DB) (movie : Movie) : DB × Movie × Option Error :=
  match db.execUpdateMovie movie.Title movie.Year movie.Runtime
      (strings.Join (elems movie.Genres) ",") movie.ID movie.Version with
  | (db1, .error err) =>
    if err = Error.ErrNoRows then (db1, movie, some Error.ErrEditConflict)
    else (db1, movie, some err)
  | (db1, .ok _) =>
    match db1.queryMovieVersion movie.ID with
    | (db2, none) => (db2, movie, some Error.ErrNoRows)
    | (db2, some version) => (db2, { movie with Version := version }, none)

/-- Go `func (m MovieModel) Delete(id int64) error`. -/
def Delete (db : DB) (id : Int) : DB × Option Error :=
  if id < 1 then (db, some Error.ErrRecordNotFound)
  else
    match db.execDeleteMovie id with
    | (db1, .error err) => (db1, some err)
    | (db1, .ok rowsAffected) =>
      if rowsAffected = 0 then (db1, some Error.ErrRecordNotFound) else (db1, none)

end MovieModel

/-! ## The validator -/

namespace validator

/-- Modelled from the spec: package `internal/validator` is missing from the source.  A
validator holds the mapping field → message of the failures recorded so far (the entries
are kept in the order they were recorded; a field occurs at most once). -/
structure Validator where
  Errors : List (String × String)
  deriving DecidableEq

/-- Modelled from the spec: package `internal/validator` is missing from the source.  A
fresh validator has recorded nothing. -/
def New : Validator := ⟨[]⟩

/-- Modelled from the spec: package `internal/validator` is missing from the source.  The
message recorded for a field, if any. -/
def Validator.message (v : Validator) (key : String) : Option String :=
  v.Errors.lookup key

/-- Modelled from the spec: package `internal/validator` is missing from the source.  A
message is recorded for a field only if the field "has no prior recorded message (first
failure per field wins — duplicates are not added)". -/
def Validator.AddError (v : Validator) (key message : String) : Validator :=
  match v.message key with
  | some _ => v
  | none => ⟨v.Errors ++ [(key, message)]⟩

/-- Modelled from the spec: package `internal/validator` is missing from the source.  "each
`check(condition, field, message)` call records a `(field, message)` pair only if
`condition` is false and `field` has no prior recorded message". -/
def Validator.Check (v : Validator) (ok : Bool) (key message : String) : Validator :=
  if ok then v else v.AddError key message

/-- Modelled from the spec: package `internal/validator` is missing from the source.
"has any failure", negated. -/
def Validator.Valid (v : Validator) : Bool := v.Errors.isEmpty

/-- Modelled from the spec: package `internal/validator` is missing from the source.
"uniqueness of genre lists": no value occurs twice. -/
def Unique (values : List String) : Bool := decide values.Nodup

end validator

/-- Go `func ValidateMovie(v *validator.Validator, movie *Movie)`, run in calendar year
`currentYear` (`time.Now().Year()`): the validator behind the pointer after the call. -/
def ValidateMovie (currentYear : Int) (v : validator.Validator) (movie : Movie) :
    validator.Validator :=
  let v := v.Check (movie.Title != "") "title" "must be provided"
  let v := v.Check (decide (movie.Title.utf8ByteSize ≤ 500)) "title"
    "must not be more than 500 bytes long"
  let v := v.Check (movie.Year != 0) "year" "must be provided"
  let v := v.Check (decide (movie.Year ≥ 1888)) "year" "must be greater than 1888"
  let v := v.Check (decide (movie.Year ≤ currentYear)) "year" "must not be in the future"
  let v := v.Check (movie.Runtime != 0) "runtime" "must be provided"
  let v := v.Check (decide (movie.Runtime > 0)) "runtime" "must be a positive integer"
  let v := v.Check (movie.Genres.isSome) "genres" "must be provided"
  let v := v.Check (decide (len movie.Genres ≥ 1)) "genres" "must contain at least 1 genre"
  let v := v.Check (decide (len movie.Genres ≤ 5)) "genres"
    "must not contain more than 5 genres"
  let v := v.Check (validator.Unique (elems movie.Genres)) "genres" "must not contain duplicate values"
  v

/-- Go `func ValidateEmail(v *validator.Validator, email string)`; `emailRX` decides
`validator.Matches(email, validator.EmailRX)`, both missing from the source. -/
def ValidateEmail (emailRX : String → Bool) (v : validator.Validator) (email : String) :
    validator.Validator :=
  let v := v.Check (email != "") "email" "email is required"
  let v := v.Check (emailRX email) "email" "must be a valid email"
  v

/-- Go `func ValidatePasswordPlaintext(v *validator.Validator, password string)`. -/
def ValidatePasswordPlaintext (v : validator.Validator) (password : String) :
    validator.Validator :=
  let v := v.Check (password != "") "password" "password must not be empty"
  let v := v.Check (decide (password.utf8ByteSize ≥ 8)) "password"
    "password must be at least 8 characters"
  let v := v.Check (decide (password.utf8ByteSize ≤ 72)) "password"
    "must not be more than 72 bytes long"
  v

/-- Go `func ValidateUser(v *validator.Validator, user *User)`: the validator behind the
pointer when the call ends, and the value the call panicked with, if it did. -/
def ValidateUser (emailRX : String → Bool) (v : validator.Validator) (user : User) :
    validator.Validator × Option String :=
  let v := v.Check (user.Name != "") "name" "must be provided"
  let v := v.Check (decide (user.Name.utf8ByteSize ≤ 500)) "name"
    "must not be more than 500 bytes long"
  let v := ValidateEmail emailRX v user.Email
  let v :=
    match user.Password.plaintext with
    | some plaintext => ValidatePasswordPlaintext v plaintext
    | none => v
  match user.Password.hash with
  | none => (v, some "missing password hash for user")
  | some _ => (v, none)

/-! ## Passwords -/

/-- Go `[]byte(s)`: the bytes of a string. -/
def bytesOf (s : String) : Bytes := s.data.flatMap String.utf8EncodeChar

/-- Go `func (p *password) Matches(plainTextPassword string) (bool, error)`; `compare` is
`bcrypt.CompareHashAndPassword`, `none` being its nil error. -/
def password.Matches (compare : Option Bytes → Bytes → Option Error) (p : password)
    (plainTextPassword : String) : Bool × Option Error :=
  match compare p.hash (bytesOf plainTextPassword) with
  | some err =>
    if err = Error.ErrMismatchedHashAndPassword then (false, none)
    else (false, none)
  | none => (true, none)

/-! ## User objects and the anonymous sentinel -/

/-- The address of a `User` object. -/
abbrev Ptr := Nat

/-- The `User` objects allocated so far; the address of an object is its position. -/
structure Heap where
  objs : List User
  deriving DecidableEq

/-- Go `User{}`: every field has its zero value. -/
def User.zero : User :=
  { ID := 0, CreatedAt := 0, Name := "", Email := "", Password := ⟨none, none⟩,
    Activated := false, Version := 0 }

/-- Go `var AnonymousUser = &User{}`: the address of the object allocated when the package
is initialised. -/
def AnonymousUser : Ptr := 0

/-- The heap once the package is initialised: it holds the sentinel object. -/
def Heap.init : Heap := ⟨[User.zero]⟩

/-- Allocation of a zero `User` object (`var user User`, `&User{}`): the address is one no
object had before. -/
def Heap.new (h : Heap) : Heap × Ptr := (⟨h.objs ++ [User.zero]⟩, h.objs.length)

/-- The object at an address. -/
def Heap.load (h : Heap) (p : Ptr) : Option User := h.objs[p]?

/-- Assignment through a pointer. -/
def Heap.store (h : Heap) (p : Ptr) (u : User) : Heap := ⟨h.objs.set p u⟩

/-- Go `func (u *User) IsAnonymous() bool`: pointer equality. -/
def User.IsAnonymous (u : Ptr) : Bool := decide (u = AnonymousUser)

/-! ## `UserModel` -/

/-- The store after
`INSERT INTO users (name, email, password_hash, activated) VALUES (?, ?, ?, ?)` at instant
`now`.  The server rejects the statement when the email is the email of a user
(`email UNIQUE`, error 1062); otherwise the row gets the next AUTO_INCREMENT id, the current
instant and the default version, and the hash it is given, which is NULL for a nil slice. -/
def DB.execInsertUser (db : DB) (now : Time) (name email : String)
    (password_hash : Option Bytes) (activated : Bool) : DB × Except Error Nat :=
  if db.users.any (fun r => decide (r.email = email)) then
    (db.recv Stmt.InsertUser, .error (Error.MySQL 1062))
  else
    let row : UserRow :=
      { id := db.usersAutoInc, created_at := now, name := name, email := email,
        password_hash := password_hash, activated := activated, version := versionDefault }
    ({ db.recv Stmt.InsertUser with
        users := db.users ++ [row]
        usersAutoInc := db.usersAutoInc + 1
        lastInsertID := db.usersAutoInc }, .ok 1)

/-- The first row of
`SELECT LAST_INSERT_ID() as id, created_at, version FROM users WHERE id = LAST_INSERT_ID()`. -/
def DB.queryInsertedUser (db : DB) : DB × Option (Int × Time × Int) :=
  (db.recv Stmt.SelectInsertedUser,
    (db.users.find? (fun r => decide (r.id = db.lastInsertID))).map
      (fun r => (db.lastInsertID, r.created_at, r.version)))

/-- The first row of
`SELECT id, created_at, name, email, password_hash, activated, version FROM users
 WHERE email = ?`. -/
def DB.queryUserByEmail (db : DB) (email : String) : DB × Option UserRow :=
  (db.recv (Stmt.SelectUserByEmail email), db.users.find? (fun r => decide (r.email = email)))

/-- The row written by the UPDATE of `users` over a row that satisfies its WHERE clause. -/
def UserRow.updated (r : UserRow) (name email : String) (password_hash : Option Bytes)
    (activated : Bool) : UserRow :=
  { r with name := name, email := email, password_hash := password_hash,
           activated := activated, version := r.version + 1 }

/-- The store after
`UPDATE users SET name = ?, email = ?, password_hash = ?, activated = ?,
 version = version + 1 WHERE id = ? AND version = ?`,
with the number of rows affected.  The server rejects the statement when an incremented
version does not fit the column (error 1264) and when the new email is the email of another
user (`email UNIQUE`, error 1062). -/
def DB.execUpdateUser (db : DB) (name email : String) (password_hash : Option Bytes)
    (activated : Bool) (id version : Int) : DB × Except Error Nat :=
  let hit : UserRow → Bool := fun r => decide (r.id = id ∧ r.version = version)
  if db.users.any (fun r => hit r && decide (versionMax < r.version + 1)) then
    (db.recv (Stmt.UpdateUser id version), .error (Error.MySQL 1264))
  else if db.users.any hit && db.users.any (fun r => decide (r.id ≠ id ∧ r.email = email)) then
    (db.recv (Stmt.UpdateUser id version), .error (Error.MySQL 1062))
  else
    ({ db.recv (Stmt.UpdateUser id version) with
        users := db.users.map
          (fun r => if hit r then r.updated name email password_hash activated else r) },
      .ok (db.users.countP hit))

/-- The first row of `SELECT version FROM users WHERE id = ?`. -/
def DB.queryUserVersion (db : DB) (id : Int) : DB × Option Int :=
  (db.recv (Stmt.SelectUserVersion id),
    (db.users.find? (fun r => decide (r.id = id))).map (fun r => r.version))

/-- The rows of `users INNER JOIN tokens ON users.id = tokens.user_id` that satisfy
`tokens.hash = ? AND tokens.scope = ? AND tokens.expiry > ?`, reduced to their `users`
columns. -/
def DB.joinUsersTokens (db : DB) (hash : Bytes) (scope : String) (now : Time) : List UserRow :=
  db.users.flatMap (fun u =>
    (db.tokens.filter (fun t =>
      decide (u.id = t.user_id) && decide (t.hash = hash) && decide (t.scope = scope)
        && decide (t.expiry > now))).map (fun _ => u))

/-- The first row of the token query of `GetForToken`. -/
def DB.queryUserForToken (db : DB) (hash : Bytes) (scope : String) (now : Time) :
    DB × Option UserRow :=
  (db.recv (Stmt.SelectUserForToken hash scope now), (db.joinUsersTokens hash scope now).head?)

/-- The `User` that `Scan` leaves behind `&user` for a row of `users`: the columns are
assigned to the fields of the zero value, `Password.plaintext` stays nil. -/
def UserRow.scan (r : UserRow) : User :=
  { ID := r.id, CreatedAt := r.created_at, Name := r.name, Email := r.email,
    Password := ⟨none, r.password_hash⟩, Activated := r.activated, Version := r.version }

namespace UserModel

/-- Go `func (m UserModel) Insert(user *User) error`, run at instant `now`: the store after
the call, the user behind the pointer, and the error. -/
def Insert (db : DB) (now : Time) (user : User) : DB × User × Option Error :=
  match db.execInsertUser now user.Name user.Email user.Password.hash user.Activated with
  | (db1, .error err) =>
    if strings.HasPrefix err.Error "Error 1062" then (db1, user, some Error.ErrDuplicateEmail)
    else (db1, user, some err)
  | (db1, .ok _) =>
    match db1.queryInsertedUser with
    | (db2, none) => (db2, user, some Error.ErrNoRows)
    | (db2, some (id, createdAt, version)) =>
      (db2, { user with ID := id, CreatedAt := createdAt, Version := version }, none)

/-- Go `func (m UserModel) GetByEmail(email string) (*User, error)`: the heap and the store
after the call, the pointer returned (`none` is nil) and the error. -/
def GetByEmail (h : Heap) (db : DB) (email : String) : Heap × DB × Option Ptr × Option Error :=
  match h.new with
  | (h1, user) =>
    match db.queryUserByEmail email with
    | (db1, none) => (h1, db1, none, some Error.ErrRecordNotFound)
    | (db1, some row) => (h1.store user row.scan, db1, some user, none)

/-- Go `func (m UserModel) Update(user *User) error`: the store after the call, the user
behind the pointer, and the error. -/
def Update (db : DB) (user : User) : DB × User × Option Error :=
  match db.execUpdateUser user.Name user.Email user.Password.hash user.Activated user.ID
      user.Version with
  | (db1, .error err) => (db1, user, some err)
  | (db1, .ok _) =>
    match db1.queryUserVersion user.ID with
    | (db2, none) => (db2, user, some Error.ErrEditConflict)
    | (db2, some version) => (db2, { user with Version := version }, none)

/-- Go `func (m UserModel) GetForToken(tokenScope, tokenPlainText string) (*User, error)`,
run at instant `now` (`time.Now()`); `sha256` is `sha256.Sum256`.  The heap and the store
after the call, the pointer returned (`none` is nil) and the error. -/
def GetForToken (sha256 : Bytes → Bytes) (now : Time) (h : Heap) (db : DB)
    (tokenScope tokenPlainText : String) : Heap × DB × Option Ptr × Option Error :=
  let tokenHash := sha256 (bytesOf tokenPlainText)
  match h.new with
  | (h1, user) =>
    match db.queryUserForToken tokenHash tokenScope now with
    | (db1, none) => (h1, db1, none, some Error.ErrRecordNotFound)
    | (db1, some row) => (h1.store user row.scan, db1, some user, none)

end UserModel

/-- A store with empty tables. -/
def DB.empty : DB :=
  { movies := [], users := [], tokens := [], moviesAutoInc := 1, usersAutoInc := 1,
    lastInsertID := 0, log := [] }

/-- The movie of the scenario of the specification, before it is inserted. -/
def inception : Movie :=
  { ID := 0, CreatedAt := 0, Title := "Inception", Year := 2010, Runtime := 148,
    Genres := some ["sci-fi", "thriller"], Version := 0 }

/-- The store of the overflow example: one movie whose version is the largest an `int32`
holds. -/
def dbVersionMax : DB :=
  { DB.empty with
    movies := [{ id := 1, created_at := 7, title := "Inception", year := 2010, runtime := 148,
                 genres := "sci-fi,thriller", version := 2147483647 }]
    moviesAutoInc := 2 }

/-- The caller's copy of the movie of `dbVersionMax`, with a changed title. -/
def movieVersionMax : Movie :=
  { inception with ID := 1, CreatedAt := 7, Title := "Inception (2010)", Version := 2147483647 }

/-- A user row at version 1. -/
def aliceRow : UserRow :=
  { id := 1, created_at := 7, name := "Alice", email := "a@example.com",
    password_hash := some [36, 50, 97], activated := true, version := 1 }

/-- A store whose only user is `aliceRow`. -/
def dbAlice : DB := { DB.empty with users := [aliceRow] }

/-- The store of the scenario once the movie is inserted at instant 100. -/
def dbInception : DB := (MovieModel.Insert DB.empty 100 inception).1

/-- The caller's copy of the inserted movie of the scenario, with a changed title. -/
def movieInception : Movie :=
  { (MovieModel.Insert DB.empty 100 inception).2.1 with Title := "Inception (2010)" }

/-- The row of the inserted movie of the scenario. -/
def rowInception : MovieRow :=
  { id := 1, created_at := 100, title := "Inception", year := 2010, runtime := 148,
    genres := "sci-fi,thriller", version := 1 }

/-- A second movie row, at version 3. -/
def rowAlien : MovieRow :=
  { id := 2, created_at := 120, title := "Alien", year := 1979, runtime := 117,
    genres := "sci-fi,horror", version := 3 }

/-- A store with two movies. -/
def dbTwoMovies : DB :=
  { DB.empty with movies := [rowInception, rowAlien], moviesAutoInc := 3, lastInsertID := 2 }

/-- A movie with an empty title, no year, no runtime and six genres. -/
def movieInvalid : Movie :=
  { ID := 0, CreatedAt := 0, Title := "", Year := 0, Runtime := 0,
    Genres := some ["a", "b", "c", "d", "e", "f"], Version := 0 }

/-- The caller's copy of the movie of the scenario as `Insert` left it (version 1). -/
def movieInserted : Movie := (MovieModel.Insert DB.empty 100 inception).2.1

/-- The store of the scenario after the first, successful update. -/
def dbUpdated : DB := (MovieModel.Update dbInception movieInception).1

/-- The stale copy of the scenario: still at version 1, with another title. -/
def movieStale : Movie := { movieInserted with Title := "Stale" }

/-- The copy of the first caller: `aliceRow` as read from the store, with a new name. -/
def aliceFirst : User := { aliceRow.scan with Name := "Alice A" }

/-- The copy of the second caller: the same id and version, with another name. -/
def aliceSecond : User := { aliceRow.scan with Name := "Alice B" }

/-- A user that never had a password set: the plaintext and the hash are nil. -/
def bobNoHash : User :=
  { User.zero with Name := "Bob", Email := "b@example.com" }

/-- The caller's copy of `aliceRow` with the hash removed. -/
def aliceNoHash : User :=
  { aliceRow.scan with Password := ⟨none, none⟩ }

/-! # Theorems -/

/-! ## Tables with a primary key -/

theorem key_ne_of_nodup_cons {α : Type} (key : α → Int) (a r : α) (l : List α)
    (hkey : ((a :: l).map key).Nodup) (hr : r ∈ l) : key a ≠ key r := by
  intro h
  rw [List.map_cons, List.nodup_cons] at hkey
  exact hkey.1 (h ▸ List.mem_map_of_mem key hr)

theorem eq_of_key_eq {α : Type} (key : α → Int) (l : List α) (hkey : (l.map key).Nodup)
    (a b : α) (ha : a ∈ l) (hb : b ∈ l) (h : key a = key b) : a = b :=
  List.inj_on_of_nodup_map hkey ha hb h

theorem find?_key_of_mem {α : Type} (key : α → Int) (l : List α) (hkey : (l.map key).Nodup)
    (r : α) (hr : r ∈ l) :
    l.find? (fun x => decide (key x = key r)) = some r := by
  induction l with
  | nil => simp at hr
  | cons a l ih =>
    rcases List.mem_cons.mp hr with h | h
    · subst h
      simp
    · have hne : key a ≠ key r := key_ne_of_nodup_cons key a r l hkey h
      rw [List.find?_cons_of_neg _ (by simpa using hne)]
      exact ih (List.Nodup.of_cons (by simpa using hkey)) h

theorem find?_key_eq_none {α : Type} (key : α → Int) (l : List α) (id : Int)
    (h : ∀ x ∈ l, key x ≠ id) : l.find? (fun x => decide (key x = id)) = none := by
  rw [List.find?_eq_none]
  intro x hx
  simpa using h x hx

/-! ## Optimistic concurrency of `MovieModel.Update` -/

theorem execUpdateMovie_error_ne_noRows (db : DB) (title : String) (year runtime : Int)
    (genres : String) (id version : Int) (err : Error)
    (h : (db.execUpdateMovie title year runtime genres id version).2 = .error err) :
    err = Error.MySQL 1264 := by
  unfold DB.execUpdateMovie at h
  dsimp only at h
  split at h
  · simp at h
    exact h.symm
  · simp at h

theorem update_never_editConflict (db : DB) (m : Movie) :
    (MovieModel.Update db m).2.2 ≠ some Error.ErrEditConflict := by
  unfold MovieModel.Update
  split
  next db1 err heq =>
    have h := execUpdateMovie_error_ne_noRows db _ _ _ _ _ _ err (by rw [heq])
    subst h
    simp
  next db1 n heq =>
    split <;> simp

theorem map_eq_self_of_no_hit {α : Type} (l : List α) (p : α → Bool) (f : α → α)
    (h : ∀ x ∈ l, ¬ p x = true) : l.map (fun x => if p x = true then f x else x) = l := by
  conv_rhs => rw [← List.map_id l]
  apply List.map_congr_left
  intro x hx
  simp [h x hx]

theorem movie_update_stale (db : DB) (m : Movie)
    (hstale : ∀ r ∈ db.movies, ¬ (r.id = m.ID ∧ r.version = m.Version)) :
    MovieModel.Update db m
      = ((db.recv (Stmt.UpdateMovie m.ID m.Version)).recv (Stmt.SelectMovieVersion m.ID),
          match db.movies.find? (fun r => decide (r.id = m.ID)) with
          | none => (m, some Error.ErrNoRows)
          | some r => ({ m with Version := r.version }, none)) := by
  have hexec : db.execUpdateMovie m.Title m.Year m.Runtime
      (strings.Join (elems m.Genres) ",") m.ID m.Version
        = (db.recv (Stmt.UpdateMovie m.ID m.Version), .ok 0) := by
    unfold DB.execUpdateMovie
    dsimp only
    rw [if_neg, map_eq_self_of_no_hit db.movies _ _ (fun x hx => by simpa using hstale x hx)]
    · congr 1
      rw [List.countP_eq_zero.mpr (fun x hx => by simpa using hstale x hx)]
    · rw [List.any_eq_true]
      rintro ⟨x, hx, hhit⟩
      simp only [Bool.and_eq_true, decide_eq_true_eq] at hhit
      exact hstale x hx hhit.1
  unfold MovieModel.Update
  rw [hexec]
  cases hf : db.movies.find? (fun r => decide (r.id = m.ID)) <;>
    simp [DB.queryMovieVersion, DB.recv, hf]

/-- C1 (the code departs from the claim).  The scenario of the specification: a movie is
inserted (version 1) and updated once (version 2); the update is then retried with the stale
version-1 copy.  The conditional write affects no row, and `Update` does not signal
`ErrEditConflict`: it returns nil and overwrites the version of the caller's copy with the
stored one.  In general, when no row has the id and the version of the copy, no row is
changed, and `Update` returns nil if a row has the id and `sql.ErrNoRows` if none has: two
different outcomes, neither of them `ErrEditConflict`, which no execution of
`MovieModel.Update` returns. -/
theorem C1_movie_update_stale_version_no_conflict :
    (MovieModel.Insert DB.empty 100 inception).2
      = ({ inception with ID := 1, CreatedAt := 100, Version := 1 }, none)
    ∧ (MovieModel.Update dbInception movieInception).2
      = ({ inception with ID := 1, CreatedAt := 100, Title := "Inception (2010)",
                          Version := 2 }, none)
    ∧ movieStale = { inception with ID := 1, CreatedAt := 100, Title := "Stale", Version := 1 }
    ∧ (MovieModel.Update dbUpdated movieStale).2 = ({ movieStale with Version := 2 }, none)
    ∧ (MovieModel.Update dbUpdated movieStale).1.movies = dbUpdated.movies
    ∧ (MovieModel.Update DB.empty movieStale).2 = (movieStale, some Error.ErrNoRows)
    ∧ (∀ (db : DB) (m : Movie),
        (∀ r ∈ db.movies, ¬ (r.id = m.ID ∧ r.version = m.Version)) →
          (MovieModel.Update db m).1.movies = db.movies
          ∧ ((∃ r ∈ db.movies, r.id = m.ID) → (MovieModel.Update db m).2.2 = none)
          ∧ ((∀ r ∈ db.movies, r.id ≠ m.ID)
              → (MovieModel.Update db m).2.2 = some Error.ErrNoRows))
    ∧ ∀ (db : DB) (m : Movie), (MovieModel.Update db m).2.2 ≠ some Error.ErrEditConflict := by
  refine ⟨by decide, by decide, by decide, by decide, by decide, by decide, ?_,
    update_never_editConflict⟩
  intro db m hstale
  rw [movie_update_stale db m hstale]
  refine ⟨rfl, ?_, ?_⟩
  · rintro ⟨r, hr, hid⟩
    cases hf : db.movies.find? (fun r => decide (r.id = m.ID)) with
    | none =>
      rw [List.find?_eq_none] at hf
      exact absurd (by simpa using hid) (hf r hr)
    | some x => rfl
  · intro hno
    rw [find?_key_eq_none MovieRow.id db.movies m.ID hno]

theorem execUpdateMovie_ok (db : DB) (title : String) (year runtime : Int)
    (genres : String) (id version : Int) (hmax : version < versionMax) :
    db.execUpdateMovie title year runtime genres id version
      = ({ db.recv (Stmt.UpdateMovie id version) with
            movies := db.movies.map (fun r =>
              if decide (r.id = id ∧ r.version = version) = true
              then r.updated title year runtime genres else r) },
          .ok (db.movies.countP (fun r => decide (r.id = id ∧ r.version = version)))) := by
  unfold DB.execUpdateMovie
  dsimp only
  rw [if_neg]
  rw [List.any_eq_true]
  rintro ⟨x, _, hx⟩
  simp only [Bool.and_eq_true, decide_eq_true_eq] at hx
  have := hx.1.2
  omega

theorem movies_update_eq_map (l : List MovieRow) (r : MovieRow) (f : MovieRow → MovieRow)
    (hkey : (l.map MovieRow.id).Nodup) (hr : r ∈ l) :
    l.map (fun x => if decide (x.id = r.id ∧ x.version = r.version) = true then f x else x)
      = l.map (fun x => if x.id = r.id then f r else x) := by
  apply List.map_congr_left
  intro x hx
  by_cases h : x.id = r.id
  · have hxr : x = r := eq_of_key_eq MovieRow.id l hkey x r hx hr h
    subst hxr
    simp
  · simp [h]

/-- C3 (amended).  For every store whose `movies` table has `id` as its key and holds a row
with `id = m.ID` and `version = m.Version = v`, where `v` is below the largest `int32`:
`Update(m)` returns no error; the row with that id afterwards has the title, year, runtime
and joined genres of `m`, the `created_at` it had and version `v + 1`; every other row, and
the other tables, are unchanged; and the caller's copy is `m` with `Version` set to `v + 1`,
the value re-read from the store. -/
theorem C3_movie_update_increments_version (db : DB) (m : Movie) (r : MovieRow)
    (hkey : (db.movies.map MovieRow.id).Nodup)
    (hr : r ∈ db.movies) (hid : r.id = m.ID) (hv : r.version = m.Version)
    (hmax : m.Version < versionMax) :
    (MovieModel.Update db m).2.2 = none
    ∧ (MovieModel.Update db m).2.1 = { m with Version := m.Version + 1 }
    ∧ (MovieModel.Update db m).2.1.Version
        = ((MovieModel.Update db m).1.movies.find? (fun x => decide (x.id = m.ID))).map
            MovieRow.version
    ∧ (MovieModel.Update db m).1.movies.find? (fun x => decide (x.id = m.ID))
        = some { id := m.ID, created_at := r.created_at, title := m.Title, year := m.Year,
                 runtime := m.Runtime, genres := strings.Join (elems m.Genres) ",",
                 version := m.Version + 1 }
    ∧ (MovieModel.Update db m).1.movies
        = db.movies.map (fun x =>
            if x.id = m.ID then
              { id := m.ID, created_at := r.created_at, title := m.Title, year := m.Year,
                runtime := m.Runtime, genres := strings.Join (elems m.Genres) ",",
                version := m.Version + 1 }
            else x)
    ∧ (∀ x : MovieRow, x.id ≠ m.ID →
        (x ∈ (MovieModel.Update db m).1.movies ↔ x ∈ db.movies))
    ∧ (MovieModel.Update db m).1.users = db.users
    ∧ (MovieModel.Update db m).1.tokens = db.tokens := by
  have hmap := movies_update_eq_map db.movies r
    (fun x => x.updated m.Title m.Year m.Runtime (strings.Join (elems m.Genres) ","))
    hkey hr
  have hrow : r.updated m.Title m.Year m.Runtime (strings.Join (elems m.Genres) ",")
      = { id := m.ID, created_at := r.created_at, title := m.Title, year := m.Year,
          runtime := m.Runtime, genres := strings.Join (elems m.Genres) ",",
          version := m.Version + 1 } := by
    simp [MovieRow.updated, hid, hv]
  beta_reduce at hmap
  rw [hrow, hid, hv] at hmap
  generalize hrowdef : MovieRow.mk m.ID r.created_at m.Title m.Year m.Runtime
      (strings.Join (elems m.Genres) ",") (m.Version + 1) = row at hmap ⊢
  have hrowid : row.id = m.ID := by rw [← hrowdef]
  have hrowv : row.version = m.Version + 1 := by rw [← hrowdef]
  have hkey2 : ((db.movies.map (fun x => if x.id = m.ID then row else x)).map MovieRow.id)
      = db.movies.map MovieRow.id := by
    rw [List.map_map]
    apply List.map_congr_left
    intro x _
    by_cases h : x.id = m.ID <;> simp [h, hrowid]
  have hmem : row ∈ db.movies.map (fun x => if x.id = m.ID then row else x) := by
    rw [List.mem_map]
    exact ⟨r, hr, by simp [hid]⟩
  have hfind : (db.movies.map (fun x => if x.id = m.ID then row else x)).find?
      (fun x => decide (x.id = m.ID)) = some row := by
    have := find?_key_of_mem MovieRow.id _ (by rw [hkey2]; exact hkey) row hmem
    rw [hrowid] at this
    exact this
  have hexec := execUpdateMovie_ok db m.Title m.Year m.Runtime
    (strings.Join (elems m.Genres) ",") m.ID m.Version hmax
  rw [hmap] at hexec
  have hupd : MovieModel.Update db m
      = ({ db.recv (Stmt.UpdateMovie m.ID m.Version) with
            movies := db.movies.map (fun x : MovieRow => if x.id = m.ID then row else x) }.recv
          (Stmt.SelectMovieVersion m.ID),
         { m with Version := m.Version + 1 }, none) := by
    unfold MovieModel.Update
    rw [hexec]
    simp only [DB.queryMovieVersion, hfind, Option.map_some', hrowv]
  rw [hupd]
  refine ⟨rfl, rfl, ?_, ?_, rfl, ?_, rfl, rfl⟩
  · simp only [DB.recv, hfind, Option.map_some', hrowv]
  · simp only [DB.recv, hfind]
  · intro x hx
    simp only [DB.recv, List.mem_map]
    constructor
    · rintro ⟨y, hy, hyx⟩
      by_cases h : y.id = m.ID
      · rw [if_pos h] at hyx
        exact absurd (hyx ▸ hrowid) hx
      · rw [if_neg h] at hyx
        exact hyx ▸ hy
    · intro hxm
      exact ⟨x, hxm, by rw [if_neg hx]⟩

/-- C3 witness: the scenario of the specification.  The movie inserted with version 1 and
updated with a changed title ends with version 2. -/
theorem C3_movie_update_increments_version_witness :
    ((dbInception.movies.map MovieRow.id).Nodup
      ∧ rowInception ∈ dbInception.movies
      ∧ rowInception.id = movieInception.ID
      ∧ rowInception.version = movieInception.Version
      ∧ movieInception.Version < versionMax)
    ∧ (MovieModel.Update dbInception movieInception).2.2 = none
    ∧ (MovieModel.Update dbInception movieInception).2.1
        = { movieInception with Version := movieInception.Version + 1 } :=
  ⟨⟨by decide, by decide, by decide, by decide, by decide⟩,
    (C3_movie_update_increments_version dbInception movieInception rowInception
      (by decide) (by decide) (by decide) (by decide) (by decide)).1,
    (C3_movie_update_increments_version dbInception movieInception rowInception
      (by decide) (by decide) (by decide) (by decide) (by decide)).2.1⟩

/-- C3 counterexample: the claim as stated fails at the largest `int32`.  The store holds
a row with the id and the version 2147483647 of the caller's copy, and `Update` does not
return success with version 2147483648: the store rejects the increment and `Update` returns
that error, the copy unchanged. -/
theorem C3_counterexample_version_overflow :
    (∃ r ∈ dbVersionMax.movies,
        r.id = movieVersionMax.ID ∧ r.version = movieVersionMax.Version)
    ∧ (dbVersionMax.movies.map MovieRow.id).Nodup
    ∧ ¬ ((MovieModel.Update dbVersionMax movieVersionMax).2.2 = none
          ∧ (MovieModel.Update dbVersionMax movieVersionMax).2.1.Version
              = movieVersionMax.Version + 1)
    ∧ (MovieModel.Update dbVersionMax movieVersionMax).2
        = (movieVersionMax, some (Error.MySQL 1264)) := by
  refine ⟨⟨_, List.mem_singleton.mpr rfl, by decide, by decide⟩, by decide, by decide,
    by decide⟩

/-! ## Optimistic concurrency of `UserModel.Update` -/

theorem user_update_stale (db : DB) (u : User)
    (hstale : ∀ r ∈ db.users, ¬ (r.id = u.ID ∧ r.version = u.Version)) :
    UserModel.Update db u
      = ((db.recv (Stmt.UpdateUser u.ID u.Version)).recv (Stmt.SelectUserVersion u.ID),
          match db.users.find? (fun r => decide (r.id = u.ID)) with
          | none => (u, some Error.ErrEditConflict)
          | some r => ({ u with Version := r.version }, none)) := by
  have hany : db.users.any (fun r => decide (r.id = u.ID ∧ r.version = u.Version)) = false := by
    rw [List.any_eq_false]
    intro x hx
    simpa using hstale x hx
  have hexec : db.execUpdateUser u.Name u.Email u.Password.hash u.Activated u.ID u.Version
        = (db.recv (Stmt.UpdateUser u.ID u.Version), .ok 0) := by
    unfold DB.execUpdateUser
    dsimp only
    rw [if_neg, if_neg,
      map_eq_self_of_no_hit db.users _ _ (fun x hx => by simpa using hstale x hx)]
    · congr 1
      rw [List.countP_eq_zero.mpr (fun x hx => by simpa using hstale x hx)]
    · rw [hany]
      simp
    · rw [List.any_eq_true]
      rintro ⟨x, hx, hhit⟩
      simp only [Bool.and_eq_true, decide_eq_true_eq] at hhit
      exact hstale x hx hhit.1
  unfold UserModel.Update
  rw [hexec]
  cases hf : db.users.find? (fun r => decide (r.id = u.ID)) <;>
    simp [DB.queryUserVersion, DB.recv, hf]

/-- C2 (the code departs from the claim).  Two callers hold a copy (id 1, version 1) of the
same existing user.  The first `Update` succeeds and leaves the row at version 2.  The
second `Update`, whose conditional write affects no row, does not return `ErrEditConflict`:
it returns nil, leaves the row as the first caller wrote it and overwrites the version of
the second caller's copy with the stored one.  In general, when no row has the id and the
version of the copy, no row is changed, and `Update` returns nil if a row has the id;
`ErrEditConflict` is returned only if no row has the id at all. -/
theorem C2_user_update_both_callers_succeed :
    (aliceFirst.ID = aliceSecond.ID ∧ aliceFirst.Version = aliceSecond.Version
      ∧ aliceRow ∈ dbAlice.users ∧ aliceRow.id = aliceFirst.ID
      ∧ aliceRow.version = aliceFirst.Version)
    ∧ (UserModel.Update dbAlice aliceFirst).2 = ({ aliceFirst with Version := 2 }, none)
    ∧ (UserModel.Update dbAlice aliceFirst).1.users
      = [{ aliceRow with name := "Alice A", version := 2 }]
    ∧ (UserModel.Update (UserModel.Update dbAlice aliceFirst).1 aliceSecond).2
      = ({ aliceSecond with Version := 2 }, none)
    ∧ (UserModel.Update (UserModel.Update dbAlice aliceFirst).1 aliceSecond).1.users
      = [{ aliceRow with name := "Alice A", version := 2 }]
    ∧ (UserModel.Update DB.empty aliceSecond).2 = (aliceSecond, some Error.ErrEditConflict)
    ∧ ∀ (db : DB) (u : User),
        (∀ r ∈ db.users, ¬ (r.id = u.ID ∧ r.version = u.Version)) →
          (UserModel.Update db u).1.users = db.users
          ∧ ((∃ r ∈ db.users, r.id = u.ID) → (UserModel.Update db u).2.2 = none)
          ∧ ((∀ r ∈ db.users, r.id ≠ u.ID)
              → (UserModel.Update db u).2.2 = some Error.ErrEditConflict) := by
  refine ⟨by decide, by decide, by decide, by decide, by decide, by decide, ?_⟩
  intro db u hstale
  rw [user_update_stale db u hstale]
  refine ⟨rfl, ?_, ?_⟩
  · rintro ⟨r, hr, hid⟩
    cases hf : db.users.find? (fun r => decide (r.id = u.ID)) with
    | none =>
      rw [List.find?_eq_none] at hf
      exact absurd (by simpa using hid) (hf r hr)
    | some x => rfl
  · intro hno
    rw [find?_key_eq_none UserRow.id db.users u.ID hno]

/-! ## `MovieModel.Delete` and `MovieModel.Get` -/

theorem filter_key_ne_eq_self {α : Type} (key : α → Int) (l : List α) (id : Int)
    (h : ∀ x ∈ l, key x ≠ id) : l.filter (fun x => !decide (key x = id)) = l := by
  rw [List.filter_eq_self]
  intro x hx
  simpa using h x hx

theorem filter_key_ne_eq_erase {α : Type} [DecidableEq α] (key : α → Int) (l : List α)
    (hkey : (l.map key).Nodup) (r : α) (hr : r ∈ l) :
    l.filter (fun x => !decide (key x = key r)) = l.erase r := by
  induction l with
  | nil => simp at hr
  | cons a l ih =>
    have hl : (l.map key).Nodup := List.Nodup.of_cons (by simpa using hkey)
    by_cases har : a = r
    · subst har
      have hne : ∀ x ∈ l, key x ≠ key a := fun x hx h =>
        key_ne_of_nodup_cons key a x l hkey hx h.symm
      simp [filter_key_ne_eq_self key l (key a) hne]
    · have hrl : r ∈ l := by
        rcases List.mem_cons.mp hr with h | h
        · exact absurd h.symm har
        · exact h
      have hne : key a ≠ key r := key_ne_of_nodup_cons key a r l hkey hrl
      rw [List.filter_cons_of_pos (by simpa using hne), List.erase_cons_tail (by simpa using har),
        ih hl hrl]

/-- C6.  In a store whose movie ids are positive and unique (they are assigned by
AUTO_INCREMENT), `Delete(id)` returns `ErrRecordNotFound` exactly when no row has that id,
and then no table is changed.  For an id below 1, `Delete` and `Get` return
`ErrRecordNotFound` and the store has received no statement.  When a row has the id,
whatever its version, `Delete` returns no error and the `movies` table afterwards is the
previous one with exactly that row removed, every other row unchanged. -/
theorem C6_movie_delete (db : DB) (id : Int)
    (hpos : ∀ r ∈ db.movies, 1 ≤ r.id)
    (hkey : (db.movies.map MovieRow.id).Nodup) :
    ((MovieModel.Delete db id).2 = some Error.ErrRecordNotFound ↔ ∀ r ∈ db.movies, r.id ≠ id)
    ∧ ((∀ r ∈ db.movies, r.id ≠ id) → (MovieModel.Delete db id).1.movies = db.movies)
    ∧ (id < 1 → MovieModel.Delete db id = (db, some Error.ErrRecordNotFound)
        ∧ MovieModel.Get db id = (db, none, some Error.ErrRecordNotFound))
    ∧ (∀ r ∈ db.movies, r.id = id →
        (MovieModel.Delete db id).2 = none
        ∧ (MovieModel.Delete db id).1.movies = db.movies.erase r
        ∧ (MovieModel.Delete db id).1.movies.length + 1 = db.movies.length
        ∧ r ∉ (MovieModel.Delete db id).1.movies
        ∧ ∀ x : MovieRow, x ≠ r → (x ∈ (MovieModel.Delete db id).1.movies ↔ x ∈ db.movies))
    ∧ (MovieModel.Delete db id).1.users = db.users
    ∧ (MovieModel.Delete db id).1.tokens = db.tokens := by
  by_cases hid : id < 1
  · have hD : MovieModel.Delete db id = (db, some Error.ErrRecordNotFound) := by
      simp [MovieModel.Delete, hid]
    have hG : MovieModel.Get db id = (db, none, some Error.ErrRecordNotFound) := by
      simp [MovieModel.Get, hid]
    have hno : ∀ r ∈ db.movies, r.id ≠ id := fun r hr h => by
      have := hpos r hr
      omega
    rw [hD]
    refine ⟨⟨fun _ => hno, fun _ => rfl⟩, fun _ => rfl, fun _ => ⟨rfl, hG⟩, ?_, rfl, rfl⟩
    intro r hr h
    exact absurd h (hno r hr)
  · have hD : MovieModel.Delete db id
        = if db.movies.countP (fun r => decide (r.id = id)) = 0
          then ({ db.recv (Stmt.DeleteMovie id) with
                  movies := db.movies.filter (fun r => !decide (r.id = id)) },
                some Error.ErrRecordNotFound)
          else ({ db.recv (Stmt.DeleteMovie id) with
                  movies := db.movies.filter (fun r => !decide (r.id = id)) }, none) := by
      simp [MovieModel.Delete, hid, DB.execDeleteMovie]
    have hcount : db.movies.countP (fun r => decide (r.id = id)) = 0
        ↔ ∀ r ∈ db.movies, r.id ≠ id := by
      rw [List.countP_eq_zero]
      simp
    by_cases hno : ∀ r ∈ db.movies, r.id ≠ id
    · rw [hD, if_pos (hcount.mpr hno)]
      refine ⟨⟨fun _ => hno, fun _ => rfl⟩,
        fun _ => filter_key_ne_eq_self MovieRow.id db.movies id hno,
        fun h => absurd h hid, ?_, rfl, rfl⟩
      intro r hr h
      exact absurd h (hno r hr)
    · rw [hD, if_neg (fun h => hno (hcount.mp h))]
      refine ⟨⟨fun h => by simp at h, fun h => absurd h hno⟩, fun h => absurd h hno,
        fun h => absurd h hid, ?_, rfl, rfl⟩
      intro r hr hrid
      subst hrid
      have herase := filter_key_ne_eq_erase MovieRow.id db.movies hkey r hr
      have hnd : db.movies.Nodup := List.Nodup.of_map MovieRow.id hkey
      refine ⟨rfl, herase, ?_, ?_, ?_⟩
      · show (db.movies.filter (fun x => !decide (x.id = r.id))).length + 1 = db.movies.length
        rw [herase, List.length_erase_of_mem hr]
        have := List.length_pos_of_mem hr
        omega
      · show r ∉ db.movies.filter (fun x => !decide (x.id = r.id))
        simp
      · intro x hx
        show x ∈ db.movies.filter (fun x => !decide (x.id = r.id)) ↔ x ∈ db.movies
        rw [herase]
        exact List.mem_erase_of_ne hx

/-- C6 witness: a store with the movies 1 and 2; deleting 2 leaves exactly the movie 1. -/
theorem C6_movie_delete_witness :
    ((∀ r ∈ dbTwoMovies.movies, 1 ≤ r.id) ∧ (dbTwoMovies.movies.map MovieRow.id).Nodup)
    ∧ ((MovieModel.Delete dbTwoMovies 2).2 = some Error.ErrRecordNotFound
        ↔ ∀ r ∈ dbTwoMovies.movies, r.id ≠ 2)
    ∧ (MovieModel.Delete dbTwoMovies 2).2 = none
    ∧ (MovieModel.Delete dbTwoMovies 2).1.movies = [rowInception] :=
  ⟨⟨by decide, by decide⟩,
    (C6_movie_delete dbTwoMovies 2 (by decide) (by decide)).1,
    ((C6_movie_delete dbTwoMovies 2 (by decide) (by decide)).2.2.2.1 rowAlien
      (by decide) (by decide)).1,
    by decide⟩

/-! ## Token lookup -/

theorem mem_joinUsersTokens (db : DB) (hash : Bytes) (scope : String) (now : Time)
    (u : UserRow) :
    u ∈ db.joinUsersTokens hash scope now
      ↔ u ∈ db.users ∧ ∃ t ∈ db.tokens,
          u.id = t.user_id ∧ t.hash = hash ∧ t.scope = scope ∧ now < t.expiry := by
  unfold DB.joinUsersTokens
  simp only [List.mem_flatMap, List.mem_map, List.mem_filter, Bool.and_eq_true,
    decide_eq_true_eq, gt_iff_lt]
  constructor
  · rintro ⟨a, ha, t, ⟨ht, ⟨⟨h1, h2⟩, h3⟩, h4⟩, rfl⟩
    exact ⟨ha, t, ht, h1, h2, h3, h4⟩
  · rintro ⟨hu, t, ht, h1, h2, h3, h4⟩
    exact ⟨u, hu, t, ⟨ht, ⟨⟨h1, h2⟩, h3⟩, h4⟩, rfl⟩

theorem load_store_new (h : Heap) (u : User) :
    (h.new.1.store h.new.2 u).load h.new.2 = some u := by
  simp [Heap.new, Heap.store, Heap.load]

/-- C4.  `GetForToken(scope, plaintext)` run at instant `now` returns a user (a non-nil
pointer, behind it the scan of the joined user row, and a nil error) if and only if the `tokens` table holds a
row whose hash is the SHA-256 of the plaintext, whose scope is the requested scope and whose
expiry is strictly later than `now`, joined to a row of `users`.  In every other case it
returns nil and `ErrRecordNotFound`, whatever the cause: in particular when every row with
that hash and scope has an expiry equal to `now` or earlier, and when every row with that
hash has another scope.  The tables are not changed. -/
theorem C4_get_for_token (sha256 : Bytes → Bytes) (now : Time) (h : Heap) (db : DB)
    (scope plaintext : String) :
    ((∃ p : Ptr, (UserModel.GetForToken sha256 now h db scope plaintext).2.2 = (some p, none))
      ↔ ∃ u ∈ db.users, ∃ t ∈ db.tokens, u.id = t.user_id
          ∧ t.hash = sha256 (bytesOf plaintext) ∧ t.scope = scope ∧ now < t.expiry)
    ∧ (∀ p : Ptr,
        (UserModel.GetForToken sha256 now h db scope plaintext).2.2 = (some p, none)
        → ∃ u ∈ db.users,
            (UserModel.GetForToken sha256 now h db scope plaintext).1.load p = some u.scan
            ∧ ∃ t ∈ db.tokens, u.id = t.user_id ∧ t.hash = sha256 (bytesOf plaintext)
                ∧ t.scope = scope ∧ now < t.expiry)
    ∧ ((¬ ∃ u ∈ db.users, ∃ t ∈ db.tokens, u.id = t.user_id
          ∧ t.hash = sha256 (bytesOf plaintext) ∧ t.scope = scope ∧ now < t.expiry)
        → (UserModel.GetForToken sha256 now h db scope plaintext).2.2
            = (none, some Error.ErrRecordNotFound))
    ∧ ((∀ t ∈ db.tokens, t.hash = sha256 (bytesOf plaintext) → t.scope = scope
          → t.expiry ≤ now)
        → (UserModel.GetForToken sha256 now h db scope plaintext).2.2
            = (none, some Error.ErrRecordNotFound))
    ∧ ((∀ t ∈ db.tokens, t.hash = sha256 (bytesOf plaintext) → t.scope ≠ scope)
        → (UserModel.GetForToken sha256 now h db scope plaintext).2.2
            = (none, some Error.ErrRecordNotFound))
    ∧ (UserModel.GetForToken sha256 now h db scope plaintext).2.1.users = db.users
    ∧ (UserModel.GetForToken sha256 now h db scope plaintext).2.1.tokens = db.tokens
    ∧ (UserModel.GetForToken sha256 now h db scope plaintext).2.1.movies = db.movies := by
  have hnone : (¬ ∃ u ∈ db.users, ∃ t ∈ db.tokens, u.id = t.user_id
          ∧ t.hash = sha256 (bytesOf plaintext) ∧ t.scope = scope ∧ now < t.expiry)
        → UserModel.GetForToken sha256 now h db scope plaintext
            = (h.new.1, db.recv (Stmt.SelectUserForToken (sha256 (bytesOf plaintext)) scope now),
                none, some Error.ErrRecordNotFound) := by
    intro hn
    have hnil : db.joinUsersTokens (sha256 (bytesOf plaintext)) scope now = [] := by
      rw [List.eq_nil_iff_forall_not_mem]
      intro u hu
      rw [mem_joinUsersTokens] at hu
      exact hn ⟨u, hu.1, hu.2⟩
    simp [UserModel.GetForToken, DB.queryUserForToken, hnil]
  have hsome : ∀ u : UserRow,
      (db.joinUsersTokens (sha256 (bytesOf plaintext)) scope now).head? = some u
        → UserModel.GetForToken sha256 now h db scope plaintext
            = (h.new.1.store h.new.2 u.scan,
                db.recv (Stmt.SelectUserForToken (sha256 (bytesOf plaintext)) scope now),
                some h.new.2, none) := by
    intro u hu
    simp [UserModel.GetForToken, DB.queryUserForToken, hu]
  by_cases hex : ∃ u ∈ db.users, ∃ t ∈ db.tokens, u.id = t.user_id
          ∧ t.hash = sha256 (bytesOf plaintext) ∧ t.scope = scope ∧ now < t.expiry
  · obtain ⟨u0, hu0, ht0⟩ := hex
    have hmem0 : u0 ∈ db.joinUsersTokens (sha256 (bytesOf plaintext)) scope now :=
      (mem_joinUsersTokens db _ scope now u0).mpr ⟨hu0, ht0⟩
    obtain ⟨u, hu⟩ : ∃ u, (db.joinUsersTokens (sha256 (bytesOf plaintext)) scope now).head?
        = some u := by
      cases hj : db.joinUsersTokens (sha256 (bytesOf plaintext)) scope now with
      | nil => rw [hj] at hmem0; simp at hmem0
      | cons a l => exact ⟨a, rfl⟩
    have humem := (mem_joinUsersTokens db _ scope now u).mp (List.mem_of_mem_head? hu)
    rw [hsome u hu]
    refine ⟨⟨fun _ => ⟨u0, hu0, ht0⟩, fun _ => ⟨h.new.2, rfl⟩⟩, ?_,
      fun hn => absurd ⟨u0, hu0, ht0⟩ hn, ?_, ?_, rfl, rfl, rfl⟩
    · intro p hp
      have hpe : h.new.2 = p := by simpa using hp
      subst hpe
      exact ⟨u, humem.1, load_store_new h _, humem.2⟩
    · intro hall
      obtain ⟨t, ht, _, h2, h3, h4⟩ := ht0
      exact absurd h4 (not_lt.mpr (hall t ht h2 h3))
    · intro hall
      obtain ⟨t, ht, _, h2, h3, _⟩ := ht0
      exact absurd h3 (hall t ht h2)
  · rw [hnone hex]
    refine ⟨⟨?_, fun hh => absurd hh hex⟩, ?_, fun _ => rfl, fun _ => rfl, fun _ => rfl, rfl,
      rfl, rfl⟩
    · rintro ⟨p, hp⟩
      simp at hp
    · intro p hp
      simp at hp

/-! ## Password comparison -/

/-- C5.  `Matches` never surfaces an error: for every stored hash (nil or corrupt ones
included) and every candidate plaintext the error result is nil, the boolean result is true
exactly when `bcrypt.CompareHashAndPassword` reports success, and every failure of the
comparison, a mismatch or any other error, yields `(false, nil)`. -/
theorem C5_password_matches_never_errors (compare : Option Bytes → Bytes → Option Error)
    (p : password) (plainTextPassword : String) :
    (password.Matches compare p plainTextPassword).2 = none
    ∧ ((password.Matches compare p plainTextPassword).1 = true
        ↔ compare p.hash (bytesOf plainTextPassword) = none)
    ∧ (∀ err : Error, compare p.hash (bytesOf plainTextPassword) = some err
        → password.Matches compare p plainTextPassword = (false, none)) := by
  unfold password.Matches
  cases hc : compare p.hash (bytesOf plainTextPassword) with
  | none => simp
  | some err =>
    by_cases he : err = Error.ErrMismatchedHashAndPassword <;> simp [he]

/-! ## The missing password hash -/

theorem find?_version_updated (l : List UserRow) (hit : UserRow → Bool) (name email : String)
    (h₁ h₂ : Option Bytes) (activated : Bool) (id : Int) :
    ((l.map (fun r => if hit r = true then r.updated name email h₁ activated else r)).find?
        (fun r => decide (r.id = id))).map UserRow.version
      = ((l.map (fun r => if hit r = true then r.updated name email h₂ activated else r)).find?
        (fun r => decide (r.id = id))).map UserRow.version := by
  induction l with
  | nil => rfl
  | cons a l ih =>
    have hkey : ∀ h : Option Bytes,
        (if hit a = true then a.updated name email h activated else a).id = a.id := by
      intro h
      split <;> rfl
    have hver : ∀ h : Option Bytes,
        (if hit a = true then a.updated name email h activated else a).version
          = if hit a = true then a.version + 1 else a.version := by
      intro h
      split <;> rfl
    rw [List.map_cons, List.map_cons]
    by_cases hid : a.id = id
    · rw [List.find?_cons_of_pos _ (by simp [hkey, hid]),
        List.find?_cons_of_pos _ (by simp [hkey, hid])]
      simp only [Option.map_some', hver]
    · rw [List.find?_cons_of_neg _ (by simp [hkey, hid]),
        List.find?_cons_of_neg _ (by simp [hkey, hid])]
      exact ih

theorem user_insert_error_hash (db : DB) (now : Time) (user : User) (hash : Option Bytes) :
    (UserModel.Insert db now
        { user with Password := { user.Password with hash := hash } }).2.2
      = (UserModel.Insert db now user).2.2 := by
  unfold UserModel.Insert DB.execInsertUser
  by_cases hdup : db.users.any (fun r => decide (r.email = user.Email)) = true
  · simp only [hdup, if_true]
    split <;> rfl
  · simp only [hdup, if_false, Bool.false_eq_true]
    cases hf : db.users.find? (fun r => decide (r.id = db.usersAutoInc)) <;>
      simp [DB.queryInsertedUser, DB.recv, List.find?_append, hf]

theorem user_update_error_hash (db : DB) (user : User) (hash : Option Bytes) :
    (UserModel.Update db
        { user with Password := { user.Password with hash := hash } }).2.2
      = (UserModel.Update db user).2.2 := by
  unfold UserModel.Update DB.execUpdateUser
  dsimp only
  split_ifs with h1 h2
  · rfl
  · rfl
  · have hv := find?_version_updated db.users
      (fun r => decide (r.id = user.ID ∧ r.version = user.Version)) user.Name user.Email
      hash user.Password.hash user.Activated user.ID
    simp only [DB.queryUserVersion, DB.recv]
    rw [hv]
    cases ((db.users.map (fun r =>
        if (fun r => decide (r.id = user.ID ∧ r.version = user.Version)) r = true
        then r.updated user.Name user.Email user.Password.hash user.Activated
        else r)).find? (fun r => decide (r.id = user.ID))).map UserRow.version <;> rfl

/-- C8 (amended).  The guard against a missing password hash is `ValidateUser`, the check
a caller runs before it persists a user.  For every validator state and every user,
`ValidateUser` panics if and only if the password hash of the user is nil, whatever the
name, the email and the plaintext are, and the value it panics with is "missing password
hash for user"; with a hash that is set it returns normally.  The missing hash is not
recorded as a validation failure: the validator holds the same entries whatever the hash
is.  `UserModel.Insert` and `UserModel.Update` do not run the check: the error they return
is the same whatever the hash is. -/
theorem C8_validate_user_panics_iff_no_hash (emailRX : String → Bool)
    (v : validator.Validator) (user : User) :
    ((ValidateUser emailRX v user).2.isSome = true ↔ user.Password.hash = none)
    ∧ ((ValidateUser emailRX v user).2 = some "missing password hash for user"
        ↔ user.Password.hash = none)
    ∧ ((ValidateUser emailRX v user).2 = none ↔ user.Password.hash ≠ none)
    ∧ (∀ hash : Option Bytes,
        (ValidateUser emailRX v
          { user with Password := { user.Password with hash := hash } }).1
          = (ValidateUser emailRX v user).1)
    ∧ (∀ (db : DB) (now : Time) (hash : Option Bytes),
        (UserModel.Insert db now
            { user with Password := { user.Password with hash := hash } }).2.2
          = (UserModel.Insert db now user).2.2)
    ∧ (∀ (db : DB) (hash : Option Bytes),
        (UserModel.Update db
            { user with Password := { user.Password with hash := hash } }).2.2
          = (UserModel.Update db user).2.2) := by
  refine ⟨?_, ?_, ?_, ?_, fun db now hash => user_insert_error_hash db now user hash,
    fun db hash => user_update_error_hash db user hash⟩
  · unfold ValidateUser
    cases hh : user.Password.hash <;> simp
  · unfold ValidateUser
    cases hh : user.Password.hash <;> simp
  · unfold ValidateUser
    cases hh : user.Password.hash <;> simp
  · intro hash
    unfold ValidateUser
    cases hh : user.Password.hash <;> cases hash <;> rfl

/-- C8 counterexample: a user with no password hash is accepted for persistence.
`UserModel.Insert` of a user whose hash is nil returns no error and leaves a row with a NULL
hash in the store, and `UserModel.Update` with a copy whose hash is nil returns no error and
overwrites the stored hash with NULL; neither panics nor returns an error. -/
theorem C8_counterexample_hashless_user_persisted :
    bobNoHash.Password.hash = none
    ∧ (UserModel.Insert DB.empty 100 bobNoHash).2
        = ({ bobNoHash with ID := 1, CreatedAt := 100, Version := 1 }, none)
    ∧ (UserModel.Insert DB.empty 100 bobNoHash).1.users
        = [{ id := 1, created_at := 100, name := "Bob", email := "b@example.com",
             password_hash := none, activated := false, version := 1 }]
    ∧ aliceNoHash.Password.hash = none
    ∧ aliceRow.password_hash ≠ none
    ∧ (UserModel.Update dbAlice aliceNoHash).2 = ({ aliceNoHash with Version := 2 }, none)
    ∧ (UserModel.Update dbAlice aliceNoHash).1.users
        = [{ aliceRow with password_hash := none, version := 2 }] := by
  refine ⟨by decide, by decide, by decide, by decide, by decide, by decide, by decide⟩

/-! ## The anonymous sentinel -/

theorem new_ne_anonymous (h : Heap) (hinit : AnonymousUser < h.objs.length) :
    User.IsAnonymous h.new.2 = false := by
  simp only [User.IsAnonymous, Heap.new, decide_eq_false_iff_not]
  exact fun heq => absurd hinit (heq ▸ lt_irrefl _)

/-- C9.  In every heap that holds the sentinel object: `IsAnonymous` is true of a pointer
if and only if it is the pointer `AnonymousUser`; a `User` constructed separately is not
anonymous although each of its fields is zero, as are those of the sentinel of the initial
heap; and no pointer returned by `GetByEmail` or by `GetForToken` is anonymous. -/
theorem C9_anonymous_is_pointer_identity (sha256 : Bytes → Bytes) (now : Time) (h : Heap)
    (db : DB) (email scope plaintext : String)
    (hinit : AnonymousUser < h.objs.length) :
    (∀ u : Ptr, User.IsAnonymous u = true ↔ u = AnonymousUser)
    ∧ (h.new.1.load h.new.2 = some User.zero ∧ User.IsAnonymous h.new.2 = false)
    ∧ h.new.1.load AnonymousUser = h.load AnonymousUser
    ∧ (Heap.init.new.1.load Heap.init.new.2 = Heap.init.new.1.load AnonymousUser
        ∧ User.IsAnonymous Heap.init.new.2 = false)
    ∧ (∀ p : Ptr, (UserModel.GetByEmail h db email).2.2.1 = some p
        → User.IsAnonymous p = false)
    ∧ (∀ p : Ptr, (UserModel.GetForToken sha256 now h db scope plaintext).2.2.1 = some p
        → User.IsAnonymous p = false) := by
  refine ⟨fun u => by simp [User.IsAnonymous], ⟨by simp [Heap.new, Heap.load],
    new_ne_anonymous h hinit⟩, ?_, ⟨by decide, by decide⟩, ?_, ?_⟩
  · simp only [Heap.new, Heap.load]
    rw [List.getElem?_append_left hinit]
  · intro p hp
    unfold UserModel.GetByEmail at hp
    cases hq : (db.queryUserByEmail email).2 with
    | none =>
      simp only [DB.queryUserByEmail] at hq hp
      simp [hq] at hp
    | some row =>
      simp only [DB.queryUserByEmail] at hq hp
      simp only [hq, Option.some.injEq] at hp
      exact hp ▸ new_ne_anonymous h hinit
  · intro p hp
    unfold UserModel.GetForToken at hp
    cases hq : (db.queryUserForToken (sha256 (bytesOf plaintext)) scope now).2 with
    | none =>
      simp only [DB.queryUserForToken] at hq hp
      simp [hq] at hp
    | some row =>
      simp only [DB.queryUserForToken] at hq hp
      simp only [hq, Option.some.injEq] at hp
      exact hp ▸ new_ne_anonymous h hinit

/-- C9 witness: on the initial heap, the user found by email in `dbAlice` is not
anonymous. -/
theorem C9_anonymous_is_pointer_identity_witness :
    AnonymousUser < Heap.init.objs.length
    ∧ (UserModel.GetByEmail Heap.init dbAlice "a@example.com").2.2.1 = some 1
    ∧ User.IsAnonymous 1 = false :=
  ⟨by decide, by decide,
    (C9_anonymous_is_pointer_identity (fun _ => []) 0 Heap.init dbAlice "a@example.com"
      "authentication" "token" (by decide)).2.2.2.2.1 1 (by decide)⟩

/-! ## Validation of movies -/

/-- C7.  For every movie with an empty title, year 0 and more than 5 genres, whatever the
current year, `ValidateMovie` on a fresh validator records a message for "title", for "year"
and for "genres", each the message of the first failing check of the field ("must be
provided", "must be provided", "must not contain more than 5 genres"); the recorded fields
are pairwise distinct and at least 3, so the validator is not valid. -/
theorem C7_validate_movie_accumulates (currentYear : Int) (movie : Movie) (genres : List String)
    (htitle : movie.Title = "") (hyear : movie.Year = 0)
    (hgenres : movie.Genres = some genres) (hlen : 5 < genres.length) :
    (ValidateMovie currentYear validator.New movie).message "title" = some "must be provided"
    ∧ (ValidateMovie currentYear validator.New movie).message "year" = some "must be provided"
    ∧ (ValidateMovie currentYear validator.New movie).message "genres"
        = some "must not contain more than 5 genres"
    ∧ ((ValidateMovie currentYear validator.New movie).Errors.map Prod.fst).Nodup
    ∧ 3 ≤ ((ValidateMovie currentYear validator.New movie).Errors.map Prod.fst).length
    ∧ (ValidateMovie currentYear validator.New movie).Valid = false := by
  obtain ⟨id, createdAt, title, year, runtime, gs, version⟩ := movie
  simp only at htitle hyear hgenres
  subst htitle hyear hgenres
  have hlen5 : ¬ genres.length ≤ 5 := by omega
  have hlen1 : 1 ≤ genres.length := by omega
  unfold ValidateMovie
  simp only [len, elems, hlen5, hlen1, ge_iff_le, decide_True, decide_False]
  by_cases hcy : (0 : Int) ≤ currentYear <;> by_cases hr0 : runtime = 0 <;>
    by_cases hrp : runtime > 0 <;> by_cases hu : validator.Unique genres = true <;>
    simp [validator.Validator.Check, validator.Validator.AddError,
      validator.Validator.message, validator.Validator.Valid, validator.New, hcy, hr0, hrp, hu,
      List.lookup]

/-- C7 witness: the movie of the specification's example, with six genres. -/
theorem C7_validate_movie_accumulates_witness :
    (movieInvalid.Title = "" ∧ movieInvalid.Year = 0
      ∧ movieInvalid.Genres = some ["a", "b", "c", "d", "e", "f"]
      ∧ 5 < ["a", "b", "c", "d", "e", "f"].length)
    ∧ (ValidateMovie 2026 validator.New movieInvalid).message "title" = some "must be provided"
    ∧ (ValidateMovie 2026 validator.New movieInvalid).message "year" = some "must be provided"
    ∧ (ValidateMovie 2026 validator.New movieInvalid).message "genres"
        = some "must not contain more than 5 genres"
    ∧ ((ValidateMovie 2026 validator.New movieInvalid).Errors.map Prod.fst).Nodup
    ∧ 3 ≤ ((ValidateMovie 2026 validator.New movieInvalid).Errors.map Prod.fst).length
    ∧ (ValidateMovie 2026 validator.New movieInvalid).Valid = false :=
  ⟨⟨rfl, rfl, rfl, by decide⟩,
    C7_validate_movie_accumulates 2026 movieInvalid ["a", "b", "c", "d", "e", "f"] rfl rfl rfl
      (by decide)⟩

/-! ## Genres across the store -/

theorem splitChars_of_not_mem (sep : Char) (x : List Char) (hx : sep ∉ x) :
    strings.splitChars sep x = [x] := by
  induction x with
  | nil => rfl
  | cons c cs ih =>
    have hc : c ≠ sep := fun h => hx (h ▸ List.mem_cons_self c cs)
    have hcs : sep ∉ cs := fun h => hx (List.mem_cons_of_mem c h)
    unfold strings.splitChars
    simp [hc, ih hcs]

theorem splitChars_append_sep (sep : Char) (x rest : List Char) (hx : sep ∉ x) :
    strings.splitChars sep (x ++ sep :: rest) = x :: strings.splitChars sep rest := by
  induction x with
  | nil => simp [strings.splitChars]
  | cons c cs ih =>
    have hc : c ≠ sep := fun h => hx (h ▸ List.mem_cons_self c cs)
    have hcs : sep ∉ cs := fun h => hx (List.mem_cons_of_mem c h)
    rw [List.cons_append]
    simp only [strings.splitChars, hc, if_false, ih hcs]

theorem splitChars_joinChars (sep : Char) (xs : List (List Char)) (hne : xs ≠ [])
    (hsep : ∀ x ∈ xs, sep ∉ x) :
    strings.splitChars sep (strings.joinChars [sep] xs) = xs := by
  induction xs with
  | nil => exact absurd rfl hne
  | cons x rest ih =>
    cases rest with
    | nil =>
      simp only [strings.joinChars]
      exact splitChars_of_not_mem sep x (hsep x (List.mem_cons_self _ _))
    | cons y rest =>
      simp only [strings.joinChars, List.append_assoc, List.singleton_append]
      rw [splitChars_append_sep sep x _ (hsep x (List.mem_cons_self _ _)),
        ih (by simp) (fun z hz => hsep z (List.mem_cons_of_mem _ hz))]

theorem split_join (genres : List String) (hne : genres ≠ [])
    (hsep : ∀ g ∈ genres, ',' ∉ g.data) :
    strings.Split (strings.Join genres ",") ',' = genres := by
  unfold strings.Split strings.Join
  have hdata : (",".data : List Char) = [','] := rfl
  rw [hdata]
  simp only
  rw [splitChars_joinChars ',' (genres.map String.data) (by simpa using hne)
    (by
      intro x hx
      obtain ⟨g, hg, rfl⟩ := List.mem_map.mp hx
      exact hsep g hg)]
  rw [List.map_map]
  conv_rhs => rw [← List.map_id genres]
  apply List.map_congr_left
  intro g _
  rfl

/-- C10.  For every non-empty list of genres none of which contains ",", splitting on ","
the join of the list with "," gives back the list, same elements in the same order.  So in
every store whose AUTO_INCREMENT counter is positive and above the ids in use, `Insert` of a
movie with these genres succeeds with a positive id, and `Get` of that id right after returns
a movie with exactly these genres. -/
theorem C10_genres_round_trip (genres : List String) (hne : genres ≠ [])
    (hsep : ∀ g ∈ genres, ',' ∉ g.data) :
    strings.Split (strings.Join genres ",") ',' = genres
    ∧ ∀ (db : DB) (now : Time) (movie : Movie),
        movie.Genres = some genres →
        1 ≤ db.moviesAutoInc →
        (∀ r ∈ db.movies, r.id < db.moviesAutoInc) →
        (MovieModel.Insert db now movie).2.2 = none
        ∧ 1 ≤ (MovieModel.Insert db now movie).2.1.ID
        ∧ (MovieModel.Insert db now movie).2.1.Genres = some genres
        ∧ (MovieModel.Get (MovieModel.Insert db now movie).1
            (MovieModel.Insert db now movie).2.1.ID).2.2 = none
        ∧ ((MovieModel.Get (MovieModel.Insert db now movie).1
            (MovieModel.Insert db now movie).2.1.ID).2.1.map Movie.Genres)
            = some (some genres) := by
  refine ⟨split_join genres hne hsep, ?_⟩
  intro db now movie hg hauto hids
  have hnone : db.movies.find? (fun r => decide (r.id = db.moviesAutoInc)) = none :=
    find?_key_eq_none MovieRow.id db.movies db.moviesAutoInc
      (fun x hx => ne_of_lt (hids x hx))
  have hins : MovieModel.Insert db now movie
      = ({ db.recv Stmt.InsertMovie with
            movies := db.movies ++ [MovieRow.mk db.moviesAutoInc now movie.Title movie.Year
              movie.Runtime (strings.Join genres ",") versionDefault]
            moviesAutoInc := db.moviesAutoInc + 1
            lastInsertID := db.moviesAutoInc }.recv Stmt.SelectInsertedMovie,
          { movie with ID := db.moviesAutoInc, CreatedAt := now, Version := versionDefault },
          none) := by
    simp [MovieModel.Insert, DB.execInsertMovie, DB.queryInsertedMovie, DB.recv, hg, elems,
      List.find?_append, hnone]
  rw [hins]
  have hlt : ¬ db.moviesAutoInc < 1 := by omega
  refine ⟨rfl, hauto, hg, ?_, ?_⟩ <;>
    simp [MovieModel.Get, DB.queryMovie, DB.recv, hlt, List.find?_append, hnone,
      split_join genres hne hsep]

/-- C10 witness: the genres of the scenario of the specification. -/
theorem C10_genres_round_trip_witness :
    (["sci-fi", "thriller"] ≠ [] ∧ ∀ g ∈ ["sci-fi", "thriller"], ',' ∉ g.data)
    ∧ strings.Split (strings.Join ["sci-fi", "thriller"] ",") ',' = ["sci-fi", "thriller"]
    ∧ ((MovieModel.Get (MovieModel.Insert DB.empty 100 inception).1
          (MovieModel.Insert DB.empty 100 inception).2.1.ID).2.1.map Movie.Genres)
        = some (some ["sci-fi", "thriller"]) :=
  ⟨⟨by decide, by decide⟩,
    (C10_genres_round_trip ["sci-fi", "thriller"] (by decide) (by decide)).1,
    ((C10_genres_round_trip ["sci-fi", "thriller"] (by decide) (by decide)).2 DB.empty 100
      inception rfl (by decide) (by decide)).2.2.2.2⟩

end Greenlight
